import Mathlib

/-!
Shallow embedding of `src/quickpicks/commitQuickPick.ts` (the GitLens commit
quick-pick module), covering `CommitQuickPick.show`, its item-list
construction, the navigation keybinding setup, and the lazily-resolved
`previousCommand` / `nextCommand` callbacks.

Host services (the git log-query service, the picker widget, the keybinding
scope) are modelled as explicit parameters; the trace of host interactions is
returned so that ordering properties can be stated.
-/

/-- A git commit as seen by the quick pick (the fields of `GitLogCommit` that
this module reads or writes: `sha`, `repoPath`, `previousSha`, `nextSha`,
`isStash`, the file list and the message). -/
structure GitLogCommit where
  sha : String
  repoPath : String
  previousSha : Option String
  nextSha : Option String
  isStash : Bool
  files : List String
  message : String
deriving DecidableEq

/-- A commit log as returned by `Container.git.getLog`: a sha-keyed map of
commits (modelled as a list in insertion order, so `Iterables.first` of the
map values is the head), a `truncated` flag, and the optional `sha` the log
was keyed at (`undefined` means the full repository history). -/
structure GitLog where
  commits : List GitLogCommit
  truncated : Bool
  sha : Option String
deriving DecidableEq

/-- `log.commits.get(sha)`: lookup of a commit in the sha-keyed map. -/
def GitLog.get (log : GitLog) (sha : String) : Option GitLogCommit :=
  log.commits.find? (fun c => c.sha == sha)

/-- The argument record of a `Container.git.getLog` call: repo path,
`maxCount`, the `reverse` flag and the `ref` the query is keyed at. -/
structure LogQuery where
  repoPath : String
  maxCount : Nat
  reverse : Bool
  ref : String
deriving DecidableEq

/-- The git log-query service: `Container.git.getLog`, which may return a log
or `undefined`. -/
def GitService : Type := LogQuery → Option GitLog

/-- What a key-command callback resolves to: either `KeyNoopCommand`, or a
`KeyCommandQuickPickItem` dispatching `Commands.ShowQuickCommitDetails` whose
args carry a `repoLog` and the target `sha`. -/
inductive KeyCmdResult where
  | noop
  | showQuickCommitDetails (repoLog : Option GitLog) (sha : String)
deriving DecidableEq

/-- `log && log.commits.get(commit.sha)`: the cached lookup both callbacks
start from. -/
def cachedCommit (repoLog : Option GitLog) (commit : GitLogCommit) : Option GitLogCommit :=
  repoLog.bind (fun l => l.get commit.sha)

/-- `c === undefined || c.previousSha === undefined`: the condition under
which `previousCommand` issues its fallback query. -/
def prevMissing (c : Option GitLogCommit) : Bool :=
  match c with
  | none => true
  | some c => c.previousSha.isNone

/-- `c === undefined || c.nextSha === undefined`: the condition under which
`nextCommand` issues its fallback query. -/
def nextMissing (c : Option GitLogCommit) : Bool :=
  match c with
  | none => true
  | some c => c.nextSha.isNone

/-- The fallback query of `previousCommand`:
`getLog(commit.repoPath, { maxCount: Container.config.advanced.maxListItems, ref: commit.sha })`. -/
def previousFallbackQuery (commit : GitLogCommit) (maxListItems : Nat) : LogQuery :=
  { repoPath := commit.repoPath, maxCount := maxListItems, reverse := false, ref := commit.sha }

/-- The fallback query of `nextCommand`:
`getLog(commit.repoPath, { maxCount: 1, reverse: true, ref: commit.sha })`. -/
def nextFallbackQuery (commit : GitLogCommit) : LogQuery :=
  { repoPath := commit.repoPath, maxCount := 1, reverse := true, ref := commit.sha }

/-- The final step shared by both branches of `previousCommand`:
`if (c === undefined || c.previousSha === undefined) return KeyNoopCommand`,
otherwise build the `ShowQuickCommitDetails` item with `repoLog: log` and
`sha: c.previousSha`. -/
def previousResult (log : Option GitLog) (c : Option GitLogCommit) : KeyCmdResult :=
  match c with
  | none => KeyCmdResult.noop
  | some c =>
    match c.previousSha with
    | none => KeyCmdResult.noop
    | some psha => KeyCmdResult.showQuickCommitDetails log psha

/-- The final step shared by both branches of `nextCommand`:
`if (c === undefined || c.nextSha === undefined) return KeyNoopCommand`,
otherwise build the `ShowQuickCommitDetails` item with `repoLog: log` and
`sha: c.nextSha`. -/
def nextResult (log : Option GitLog) (c : Option GitLogCommit) : KeyCmdResult :=
  match c with
  | none => KeyCmdResult.noop
  | some c =>
    match c.nextSha with
    | none => KeyCmdResult.noop
    | some nsha => KeyCmdResult.showQuickCommitDetails log nsha

/-- Outcome of one invocation of the `previousCommand` callback: the key
command it returns, the log queries it issued, and the value of the local
variable `c` at the point the result is built (after the fallback patched its
`nextSha`, when the fallback ran). -/
structure PrevOutcome where
  result : KeyCmdResult
  queries : List LogQuery
  finalCommit : Option GitLogCommit
deriving DecidableEq

/-- The lazily-resolved `previousCommand` callback (lines 317-346 of the
source): look the commit up in the cached `repoLog`; if it is absent or its
`previousSha` is untrustworthy, issue a fresh log query keyed at
`commit.sha` with `maxCount = maxListItems`, re-look the commit up in the
fresh log and copy `commit.nextSha` onto it (the next info is trustworthy at
this point); finally return `KeyNoopCommand` if the previous sha is still
unresolved, else the `ShowQuickCommitDetails` key command. -/
def previousCommand (getLog : GitService) (maxListItems : Nat)
    (repoLog : Option GitLog) (commit : GitLogCommit) : PrevOutcome :=
  let c0 := cachedCommit repoLog commit
  if prevMissing c0 then
    let q := previousFallbackQuery commit maxListItems
    let log := getLog q
    let c1 := log.bind (fun l => l.get commit.sha)
    -- Copy over next info, since it is trustworthy at this point
    let c2 := c1.map (fun c => { c with nextSha := commit.nextSha })
    { result := previousResult log c2, queries := [q], finalCommit := c2 }
  else
    { result := previousResult repoLog c0, queries := [], finalCommit := c0 }

/-- Outcome of one invocation of the `nextCommand` callback: the key command
it returns, the log queries it issued, the value of the local variable `c` at
the point the result is built, and the state of the current commit afterwards
(the fallback assigns `c = commit; c.nextSha = next.sha`, mutating the
current commit). -/
structure NextOutcome where
  result : KeyCmdResult
  queries : List LogQuery
  finalCommit : Option GitLogCommit
  commitAfter : GitLogCommit
deriving DecidableEq

/-- The lazily-resolved `nextCommand` callback (lines 348-378 of the source):
look the commit up in the cached `repoLog`; if it is absent or its `nextSha`
is untrustworthy, clear `log` and `c` and issue a reverse log query with
`maxCount: 1` keyed at `commit.sha`; if the first commit of that log exists
and differs from the current commit, set `c` to the current commit with its
`nextSha` updated; finally return `KeyNoopCommand` if the next sha is still
unresolved, else the `ShowQuickCommitDetails` key command (whose `repoLog`
arg is `undefined` on the fallback path). -/
def nextCommand (getLog : GitService)
    (repoLog : Option GitLog) (commit : GitLogCommit) : NextOutcome :=
  let c0 := cachedCommit repoLog commit
  if nextMissing c0 then
    let q := nextFallbackQuery commit
    -- Try to find the next commit
    let nextLog := getLog q
    let next := nextLog.bind (fun l => l.commits.head?)
    let c1 : Option GitLogCommit :=
      match next with
      | some n => if n.sha ≠ commit.sha then some { commit with nextSha := some n.sha } else none
      | none => none
    { result := nextResult none c1, queries := [q], finalCommit := c1,
      commitAfter := c1.getD commit }
  else
    { result := nextResult repoLog c0, queries := [], finalCommit := c0,
      commitAfter := commit }

/-- The quick-pick items `CommitQuickPick.show` builds, identified
symbolically by which command item each splice inserts (file entries carry
their file name). -/
inductive Item where
  | goBack
  | stashApply
  | stashDelete
  | showCommitInView
  | openRemotes
  | openFiles
  | openRevisions
  | dirCompareWithPrevious
  | dirCompareWithWorking
  | copyCommitId
  | copyMessage
  | changedFiles
  | file (name : String)
deriving DecidableEq

/-- `items.splice(index, 0, x)`: insert `x` at position `index`. -/
def spliceInsert (items : List Item) (index : Nat) (x : Item) : List Item :=
  items.take index ++ [x] ++ items.drop index

/-- The item list `CommitQuickPick.show` builds (lines 119-283 of the
source): one file item per changed file, then a sequence of command items
spliced in at an incrementing index — the stash items (apply, delete, show
in view) for a stash, or show-in-view plus the remotes item for a normal
commit; then open-files, open-revisions, the two directory compares; the
copy-commit-id item for non-stashes; copy-message and changed-files; and
finally the go-back command spliced in at position 0 when provided. -/
def buildItems (commit : GitLogCommit) (hasRemotes : Bool) (goBackCommand : Bool) :
    List Item := Id.run do
  let mut items : List Item := commit.files.map Item.file
  let mut index : Nat := 0
  if commit.isStash then
    items := spliceInsert items index Item.stashApply
    index := index + 1
    items := spliceInsert items index Item.stashDelete
    index := index + 1
    items := spliceInsert items index Item.showCommitInView
    index := index + 1
  else
    items := spliceInsert items index Item.showCommitInView
    index := index + 1
    if hasRemotes then
      items := spliceInsert items index Item.openRemotes
      index := index + 1
  items := spliceInsert items index Item.openFiles
  index := index + 1
  items := spliceInsert items index Item.openRevisions
  index := index + 1
  items := spliceInsert items index Item.dirCompareWithPrevious
  index := index + 1
  items := spliceInsert items index Item.dirCompareWithWorking
  index := index + 1
  if !commit.isStash then
    items := spliceInsert items index Item.copyCommitId
    index := index + 1
  items := spliceInsert items index Item.copyMessage
  index := index + 1
  items := spliceInsert items index Item.changedFiles
  index := index + 1
  if goBackCommand then
    items := spliceInsert items 0 Item.goBack
  return items

/-- What the `','` / `'.'` keys get bound to: `undefined`, a static
`KeyCommandQuickPickItem` (recording the target sha of its
`ShowQuickCommitDetails` args), or an async callback. -/
inductive NavBinding where
  | undef
  | staticCmd (sha : String)
  | callback
deriving DecidableEq

/-- `repoLog !== undefined && !repoLog.truncated && repoLog.sha === undefined`:
the log is the full, untruncated repository history. -/
def fullHistory (repoLog : Option GitLog) : Bool :=
  match repoLog with
  | none => false
  | some log => !log.truncated && log.sha.isNone

/-- The `','` (previous) and `'.'` (next) bindings `CommitQuickPick.show`
computes (lines 285-380): both stay `undefined` for a stash; with the full
history, each is a static key command targeting `commit.previousSha`
(resp. `commit.nextSha`) or `undefined` when that sha is `undefined`;
otherwise each is the async callback. -/
def navBindings (commit : GitLogCommit) (repoLog : Option GitLog) :
    NavBinding × NavBinding :=
  if commit.isStash then (NavBinding.undef, NavBinding.undef)
  else if fullHistory repoLog then
    ((match commit.previousSha with
      | none => NavBinding.undef
      | some s => NavBinding.staticCmd s),
     (match commit.nextSha with
      | none => NavBinding.undef
      | some s => NavBinding.staticCmd s))
  else (NavBinding.callback, NavBinding.callback)

/-- The host interactions of one `CommitQuickPick.show` run, in order:
`commit.resolvePreviousFileSha()`, `Container.git.getRemotes` (non-stash
only), `Container.keyboard.beginScope` (recording whether `left` is bound to
the go-back command, and the two nav bindings), `window.showQuickPick`, and
`scope.dispose()`. -/
inductive ShowEvent where
  | resolvePreviousFileSha
  | getRemotes
  | beginScope (left : Bool) (prev : NavBinding) (next : NavBinding)
  | showQuickPick
  | disposeScope
deriving DecidableEq

/-- The observable outcome of `CommitQuickPick.show`: the item list handed to
the picker, the two nav bindings, the returned pick, and the host-interaction
trace. -/
structure ShowResult where
  items : List Item
  previousBinding : NavBinding
  nextBinding : NavBinding
  pick : Option Item
  trace : List ShowEvent
deriving DecidableEq

/-- `CommitQuickPick.show` (lines 110-406 of the source), with the host
collaborators made explicit: `hasRemotes` is whether
`Container.git.getRemotes` returns a non-empty list, `goBackCommand` whether
a go-back command was passed, and `hostPick` the selection
`window.showQuickPick` resolves with (`none` on dismissal). The returned
`pick` is passed through unchanged. -/
def CommitQuickPick.showPicker (commit : GitLogCommit) (hasRemotes : Bool)
    (goBackCommand : Bool) (repoLog : Option GitLog) (hostPick : Option Item) :
    ShowResult :=
  let items := buildItems commit hasRemotes goBackCommand
  let nav := navBindings commit repoLog
  { items := items
    previousBinding := nav.1
    nextBinding := nav.2
    pick := hostPick
    trace :=
      [ShowEvent.resolvePreviousFileSha]
        ++ (if commit.isStash then [] else [ShowEvent.getRemotes])
        ++ [ShowEvent.beginScope goBackCommand nav.1 nav.2,
            ShowEvent.showQuickPick, ShowEvent.disposeScope] }

/-! Helper lemmas about the two callbacks. -/

theorem prevMissing_eq_true_iff (c : Option GitLogCommit) :
    prevMissing c = true ↔ (c = none ∨ ∃ cc, c = some cc ∧ cc.previousSha = none) := by
  cases c with
  | none => simp [prevMissing]
  | some cc => cases h : cc.previousSha <;> simp [prevMissing, h]

theorem nextMissing_eq_true_iff (c : Option GitLogCommit) :
    nextMissing c = true ↔ (c = none ∨ ∃ cc, c = some cc ∧ cc.nextSha = none) := by
  cases c with
  | none => simp [nextMissing]
  | some cc => cases h : cc.nextSha <;> simp [nextMissing, h]

theorem previousResult_eq_noop (log : Option GitLog) (c : Option GitLogCommit)
    (h : ¬ ∃ cc p, c = some cc ∧ cc.previousSha = some p) :
    previousResult log c = KeyCmdResult.noop := by
  cases c with
  | none => rfl
  | some cc =>
    cases hp : cc.previousSha with
    | none => simp [previousResult, hp]
    | some p => exact absurd ⟨cc, p, rfl, hp⟩ h

theorem nextResult_eq_noop (log : Option GitLog) (c : Option GitLogCommit)
    (h : ¬ ∃ cc n, c = some cc ∧ cc.nextSha = some n) :
    nextResult log c = KeyCmdResult.noop := by
  cases c with
  | none => rfl
  | some cc =>
    cases hn : cc.nextSha with
    | none => simp [nextResult, hn]
    | some n => exact absurd ⟨cc, n, rfl, hn⟩ h

theorem previousCommand_result_eq (getLog : GitService) (maxListItems : Nat)
    (repoLog : Option GitLog) (commit : GitLogCommit) :
    (previousCommand getLog maxListItems repoLog commit).result =
      previousResult
        (if prevMissing (cachedCommit repoLog commit) then
          getLog (previousFallbackQuery commit maxListItems)
         else repoLog)
        (previousCommand getLog maxListItems repoLog commit).finalCommit := by
  cases hm : prevMissing (cachedCommit repoLog commit) <;> simp [previousCommand, hm]

theorem nextCommand_result_eq (getLog : GitService)
    (repoLog : Option GitLog) (commit : GitLogCommit) :
    (nextCommand getLog repoLog commit).result =
      nextResult
        (if nextMissing (cachedCommit repoLog commit) then none else repoLog)
        (nextCommand getLog repoLog commit).finalCommit := by
  cases hm : nextMissing (cachedCommit repoLog commit) <;> simp [nextCommand, hm]

theorem previousCommand_queries_eq (getLog : GitService) (maxListItems : Nat)
    (repoLog : Option GitLog) (commit : GitLogCommit) :
    (previousCommand getLog maxListItems repoLog commit).queries =
      if prevMissing (cachedCommit repoLog commit) then
        [previousFallbackQuery commit maxListItems]
      else [] := by
  cases hm : prevMissing (cachedCommit repoLog commit) <;> simp [previousCommand, hm]

theorem nextCommand_queries_eq (getLog : GitService)
    (repoLog : Option GitLog) (commit : GitLogCommit) :
    (nextCommand getLog repoLog commit).queries =
      if nextMissing (cachedCommit repoLog commit) then [nextFallbackQuery commit]
      else [] := by
  cases hm : nextMissing (cachedCommit repoLog commit) <;> simp [nextCommand, hm]

/-! Concrete fixtures used by the witness theorems. -/

/-- A non-stash commit with a previous sha and no next sha. -/
def exCommit : GitLogCommit :=
  { sha := "a", repoPath := "r", previousSha := some "p", nextSha := none,
    isStash := false, files := ["f1", "f2"], message := "m" }

/-- A non-stash commit with both a previous and a next sha. -/
def exCommitP : GitLogCommit :=
  { sha := "a", repoPath := "r", previousSha := some "p", nextSha := some "n",
    isStash := false, files := ["f1"], message := "m" }

/-- A stash commit. -/
def exStash : GitLogCommit :=
  { sha := "s", repoPath := "r", previousSha := none, nextSha := none,
    isStash := true, files := ["f1"], message := "m" }

/-- A truncated, sha-keyed cached log containing `exCommitP`. -/
def exCachedLog : GitLog := { commits := [exCommitP], truncated := true, sha := some "a" }

/-- A full-history log (not truncated, no keyed sha) containing `exCommitP`. -/
def exFullLog : GitLog := { commits := [exCommitP], truncated := false, sha := none }

/-- A refetched copy of commit `"a"` differing from `exCommit` in every
optional field. -/
def exFetch : GitLogCommit :=
  { sha := "a", repoPath := "r", previousSha := some "q", nextSha := some "z",
    isStash := false, files := ["f1", "f3"], message := "m2" }

/-- A log returned by the fallback queries, containing `exFetch`. -/
def exFreshLog : GitLog := { commits := [exFetch], truncated := true, sha := some "a" }

/-- A git service answering every query with `exFreshLog`. -/
def exGetLog : GitService := fun _ => some exFreshLog

/-- A git service answering every query with `undefined`. -/
def exGetNone : GitService := fun _ => none

/-! The claim theorems. -/

/-- Claim C1: for every invocation of the lazily-resolved previous-command or
next-command callback, if the adjacent sha cannot be resolved even after the
fallback log query (the final `c` is `undefined` or lacks the adjacent sha),
the callback returns the no-op key command `KeyNoopCommand` rather than
failing. -/
theorem navCallbacks_noop_when_unresolved (getLog : GitService) (maxListItems : Nat)
    (repoLog : Option GitLog) (commit : GitLogCommit) :
    (¬ (∃ c p, (previousCommand getLog maxListItems repoLog commit).finalCommit = some c ∧
          c.previousSha = some p) →
      (previousCommand getLog maxListItems repoLog commit).result = KeyCmdResult.noop) ∧
    (¬ (∃ c n, (nextCommand getLog repoLog commit).finalCommit = some c ∧
          c.nextSha = some n) →
      (nextCommand getLog repoLog commit).result = KeyCmdResult.noop) := by
  constructor
  · intro h
    rw [previousCommand_result_eq]
    exact previousResult_eq_noop _ _ h
  · intro h
    rw [nextCommand_result_eq]
    exact nextResult_eq_noop _ _ h

/-- Witness for C1: with no cached log and a git service returning nothing,
both callbacks return the no-op command. -/
theorem navCallbacks_noop_when_unresolved_witness :
    (previousCommand exGetNone 50 none exCommit).result = KeyCmdResult.noop ∧
    (nextCommand exGetNone none exCommit).result = KeyCmdResult.noop := by
  have h := navCallbacks_noop_when_unresolved exGetNone 50 none exCommit
  refine ⟨h.1 ?_, h.2 ?_⟩
  · rintro ⟨c, p, hc, hp⟩
    rw [show (previousCommand exGetNone 50 none exCommit).finalCommit = none from by decide]
      at hc
    exact Option.noConfusion hc
  · rintro ⟨c, n, hc, hn⟩
    rw [show (nextCommand exGetNone none exCommit).finalCommit = none from by decide] at hc
    exact Option.noConfusion hc

/-- Claim C2: `previousCommand` issues its fresh log query (keyed at the
commit's sha) exactly when the cached `repoLog` does not contain the commit
or the cached commit's `previousSha` is `undefined`; when the cached log
supplies a trustworthy `previousSha`, no query is made and the result uses
the cached adjacency (and the cached log). -/
theorem previousCommand_fresh_query_iff (getLog : GitService) (maxListItems : Nat)
    (repoLog : Option GitLog) (commit : GitLogCommit) :
    ((previousCommand getLog maxListItems repoLog commit).queries =
        [previousFallbackQuery commit maxListItems] ↔
      (cachedCommit repoLog commit = none ∨
        ∃ c, cachedCommit repoLog commit = some c ∧ c.previousSha = none)) ∧
    (∀ c p, cachedCommit repoLog commit = some c → c.previousSha = some p →
      (previousCommand getLog maxListItems repoLog commit).queries = [] ∧
      (previousCommand getLog maxListItems repoLog commit).result =
        KeyCmdResult.showQuickCommitDetails repoLog p) := by
  constructor
  · rw [previousCommand_queries_eq, ← prevMissing_eq_true_iff]
    cases hm : prevMissing (cachedCommit repoLog commit) <;> simp [hm]
  · intro c p hc hp
    have hm : prevMissing (cachedCommit repoLog commit) = false := by
      rw [hc]
      simp [prevMissing, hp]
    refine ⟨?_, ?_⟩
    · rw [previousCommand_queries_eq, hm]
      simp
    · rw [previousCommand_result_eq]
      have hfin : (previousCommand getLog maxListItems repoLog commit).finalCommit =
          cachedCommit repoLog commit := by
        simp [previousCommand, hm]
      rw [hfin, hc]
      simp [previousResult, prevMissing, hp]

/-- Witness for C2: a cached log holding the commit with a trustworthy
previous sha yields no query and the cached adjacency. -/
theorem previousCommand_fresh_query_iff_witness :
    (previousCommand exGetNone 50 (some exCachedLog) exCommitP).queries = [] ∧
    (previousCommand exGetNone 50 (some exCachedLog) exCommitP).result =
      KeyCmdResult.showQuickCommitDetails (some exCachedLog) "p" :=
  (previousCommand_fresh_query_iff exGetNone 50 (some exCachedLog) exCommitP).2
    exCommitP "p" (by decide) (by decide)

/-- Claim C3: for a non-stash commit, when the `repoLog` is defined, not
truncated and has no keyed sha (full history), the previous/next bindings are
static key commands — `undefined` exactly when `commit.previousSha`
(resp. `commit.nextSha`) is `undefined` — and otherwise both keys are bound
to the asynchronous callbacks. -/
theorem showPicker_full_history_bindings (commit : GitLogCommit)
    (hasRemotes goBackCommand : Bool) (repoLog : Option GitLog) (hostPick : Option Item)
    (hs : commit.isStash = false) :
    (∀ log, repoLog = some log → log.truncated = false → log.sha = none →
      ((commit.previousSha = none →
          (CommitQuickPick.showPicker commit hasRemotes goBackCommand repoLog
            hostPick).previousBinding = NavBinding.undef) ∧
       (∀ s, commit.previousSha = some s →
          (CommitQuickPick.showPicker commit hasRemotes goBackCommand repoLog
            hostPick).previousBinding = NavBinding.staticCmd s) ∧
       (commit.nextSha = none →
          (CommitQuickPick.showPicker commit hasRemotes goBackCommand repoLog
            hostPick).nextBinding = NavBinding.undef) ∧
       (∀ s, commit.nextSha = some s →
          (CommitQuickPick.showPicker commit hasRemotes goBackCommand repoLog
            hostPick).nextBinding = NavBinding.staticCmd s))) ∧
    ((repoLog = none ∨ ∃ log, repoLog = some log ∧ (log.truncated = true ∨ log.sha ≠ none)) →
      (CommitQuickPick.showPicker commit hasRemotes goBackCommand repoLog
        hostPick).previousBinding = NavBinding.callback ∧
      (CommitQuickPick.showPicker commit hasRemotes goBackCommand repoLog
        hostPick).nextBinding = NavBinding.callback) := by
  constructor
  · rintro log rfl ht hsha
    have hfull : fullHistory (some log) = true := by simp [fullHistory, ht, hsha]
    refine ⟨?_, ?_, ?_, ?_⟩
    · intro hp
      simp [CommitQuickPick.showPicker, navBindings, hs, hfull, hp]
    · intro s hp
      simp [CommitQuickPick.showPicker, navBindings, hs, hfull, hp]
    · intro hn
      simp [CommitQuickPick.showPicker, navBindings, hs, hfull, hn]
    · intro s hn
      simp [CommitQuickPick.showPicker, navBindings, hs, hfull, hn]
  · intro hnot
    have hfull : fullHistory repoLog = false := by
      rcases hnot with rfl | ⟨log, rfl, ht | hsha⟩
      · rfl
      · simp [fullHistory, ht]
      · simp only [fullHistory, Bool.and_eq_false_iff, Bool.not_eq_false]
        right
        simp only [Bool.not_eq_true, Option.isNone_eq_false_iff]
        exact Option.isSome_iff_ne_none.mpr hsha
    constructor <;> simp [CommitQuickPick.showPicker, navBindings, hs, hfull]

/-- Witness for C3: with a full-history log, the `','` key of a commit with
previous sha `"p"` gets the static command targeting `"p"`. -/
theorem showPicker_full_history_bindings_witness :
    (CommitQuickPick.showPicker exCommitP true true (some exFullLog) none).previousBinding =
      NavBinding.staticCmd "p" :=
  ((showPicker_full_history_bindings exCommitP true true (some exFullLog) none
    (by decide)).1 exFullLog rfl (by decide) (by decide)).2.1 "p" (by decide)

/-- Claim C4: `CommitQuickPick.show` returns exactly what the host picker
resolves with — the selected item, or `undefined` on dismissal. -/
theorem showPicker_returns_host_pick (commit : GitLogCommit)
    (hasRemotes goBackCommand : Bool) (repoLog : Option GitLog) (hostPick : Option Item) :
    (CommitQuickPick.showPicker commit hasRemotes goBackCommand repoLog hostPick).pick =
      hostPick := rfl

/-- Claim C5: for every commit, the picker item list includes the stash-apply
and stash-delete items exactly when the commit is a stash, the
copy-commit-id item exactly when it is not, and always includes the
open-files, open-revisions, both directory-compare, copy-message, and
changed-files items. -/
theorem showPicker_items_membership (commit : GitLogCommit)
    (hasRemotes goBackCommand : Bool) (repoLog : Option GitLog) (hostPick : Option Item) :
    let its := (CommitQuickPick.showPicker commit hasRemotes goBackCommand repoLog
      hostPick).items
    (Item.stashApply ∈ its ↔ commit.isStash = true) ∧
    (Item.stashDelete ∈ its ↔ commit.isStash = true) ∧
    (Item.copyCommitId ∈ its ↔ commit.isStash = false) ∧
    Item.openFiles ∈ its ∧ Item.openRevisions ∈ its ∧
    Item.dirCompareWithPrevious ∈ its ∧ Item.dirCompareWithWorking ∈ its ∧
    Item.copyMessage ∈ its ∧ Item.changedFiles ∈ its := by
  rcases commit with ⟨sha, rp, ps, ns, st, fs, msg⟩
  cases st <;> cases hasRemotes <;> cases goBackCommand <;>
    simp [CommitQuickPick.showPicker, buildItems, spliceInsert, Id.run]

/-- Claim C6: in every run of `CommitQuickPick.show`, the keybinding scope is
created (with the `left` key bound to the go-back command) before the picker
is displayed and disposed after the picker closes and before the run ends;
only the previous-sha resolution and the remotes query precede it. -/
theorem showPicker_scope_lifecycle (commit : GitLogCommit)
    (hasRemotes goBackCommand : Bool) (repoLog : Option GitLog) (hostPick : Option Item) :
    ∃ pre p n,
      (CommitQuickPick.showPicker commit hasRemotes goBackCommand repoLog hostPick).trace =
        pre ++ [ShowEvent.beginScope goBackCommand p n, ShowEvent.showQuickPick,
                ShowEvent.disposeScope] ∧
      ∀ e ∈ pre, e = ShowEvent.resolvePreviousFileSha ∨ e = ShowEvent.getRemotes := by
  refine ⟨[ShowEvent.resolvePreviousFileSha] ++
      (if commit.isStash then [] else [ShowEvent.getRemotes]),
    (navBindings commit repoLog).1, (navBindings commit repoLog).2, rfl, ?_⟩
  intro e he
  cases h : commit.isStash <;> rw [h] at he <;> simp at he <;> tauto

/-- Claim C7: `nextCommand` issues its fallback — a reverse log query with
`maxCount` 1 keyed at the commit's sha — exactly when the cached log does not
contain the commit or the cached commit's `nextSha` is `undefined`; the
`previousCommand` fallback query instead uses the configured `maxListItems`
as its `maxCount`. -/
theorem nextCommand_fallback_query_iff (getLog : GitService) (maxListItems : Nat)
    (repoLog : Option GitLog) (commit : GitLogCommit) :
    ((nextCommand getLog repoLog commit).queries =
        [{ repoPath := commit.repoPath, maxCount := 1, reverse := true,
           ref := commit.sha }] ↔
      (cachedCommit repoLog commit = none ∨
        ∃ c, cachedCommit repoLog commit = some c ∧ c.nextSha = none)) ∧
    (∀ c n, cachedCommit repoLog commit = some c → c.nextSha = some n →
      (nextCommand getLog repoLog commit).queries = []) ∧
    ((previousCommand getLog maxListItems repoLog commit).queries ≠ [] →
      (previousCommand getLog maxListItems repoLog commit).queries =
        [{ repoPath := commit.repoPath, maxCount := maxListItems, reverse := false,
           ref := commit.sha }]) := by
  refine ⟨?_, ?_, ?_⟩
  · rw [nextCommand_queries_eq, ← nextMissing_eq_true_iff]
    cases hm : nextMissing (cachedCommit repoLog commit) <;> simp [hm, nextFallbackQuery]
  · intro c n hc hn
    have hm : nextMissing (cachedCommit repoLog commit) = false := by
      rw [hc]
      simp [nextMissing, hn]
    rw [nextCommand_queries_eq, hm]
    simp
  · intro h
    rw [previousCommand_queries_eq] at h ⊢
    cases hm : prevMissing (cachedCommit repoLog commit)
    · simp [hm] at h
    · simp [previousFallbackQuery]

/-- Witness for C7: with no cached log, `nextCommand` issues exactly the
reverse maxCount-1 query keyed at the commit's sha. -/
theorem nextCommand_fallback_query_iff_witness :
    (nextCommand exGetNone none exCommit).queries =
      [{ repoPath := "r", maxCount := 1, reverse := true, ref := "a" }] :=
  (nextCommand_fallback_query_iff exGetNone 50 none exCommit).1.mpr (Or.inl (by decide))

/-- Claim C8: for a stash commit, both the previous and next bindings stay
`undefined`, so the `','` and `'.'` navigation keys are never active. -/
theorem showPicker_stash_no_navigation (commit : GitLogCommit)
    (hasRemotes goBackCommand : Bool) (repoLog : Option GitLog) (hostPick : Option Item)
    (hs : commit.isStash = true) :
    (CommitQuickPick.showPicker commit hasRemotes goBackCommand repoLog
      hostPick).previousBinding = NavBinding.undef ∧
    (CommitQuickPick.showPicker commit hasRemotes goBackCommand repoLog
      hostPick).nextBinding = NavBinding.undef := by
  constructor <;> simp [CommitQuickPick.showPicker, navBindings, hs]

/-- Witness for C8: a concrete stash commit gets no navigation bindings. -/
theorem showPicker_stash_no_navigation_witness :
    (CommitQuickPick.showPicker exStash true true none none).previousBinding =
        NavBinding.undef ∧
    (CommitQuickPick.showPicker exStash true true none none).nextBinding =
        NavBinding.undef :=
  showPicker_stash_no_navigation exStash true true none none (by decide)

/-- Claim C9: when the cached adjacency is missing and the reverse fallback
query's first commit has the same sha as the current commit, the current
commit's `nextSha` is left untouched and the callback returns the no-op
command, so navigation can never target the commit itself. -/
theorem nextCommand_fallback_self_noop (getLog : GitService) (repoLog : Option GitLog)
    (commit : GitLogCommit) (nl : GitLog) (n : GitLogCommit)
    (hmiss : cachedCommit repoLog commit = none ∨
      ∃ c, cachedCommit repoLog commit = some c ∧ c.nextSha = none)
    (hq : getLog (nextFallbackQuery commit) = some nl)
    (hfirst : nl.commits.head? = some n)
    (hsha : n.sha = commit.sha) :
    (nextCommand getLog repoLog commit).result = KeyCmdResult.noop ∧
    (nextCommand getLog repoLog commit).commitAfter = commit := by
  have hm : nextMissing (cachedCommit repoLog commit) = true :=
    (nextMissing_eq_true_iff _).mpr hmiss
  simp [nextCommand, hm, hq, hfirst, hsha, nextResult]

/-- Witness for C9: a fallback log whose first commit is the current commit
itself yields the no-op command and leaves the commit unchanged. -/
theorem nextCommand_fallback_self_noop_witness :
    (nextCommand exGetLog none exFetch).result = KeyCmdResult.noop ∧
    (nextCommand exGetLog none exFetch).commitAfter = exFetch :=
  nextCommand_fallback_self_noop exGetLog none exFetch exFreshLog exFetch
    (Or.inl (by decide)) (by decide) (by decide) (by decide)

/-- Claim C10: when the previous-command fallback refetches the commit, the
original commit's `nextSha` is copied onto the fetched copy and every other
field of the fetched copy is left as fetched. -/
theorem previousCommand_fallback_preserves_fields (getLog : GitService)
    (maxListItems : Nat) (repoLog : Option GitLog) (commit cf : GitLogCommit)
    (hmiss : cachedCommit repoLog commit = none ∨
      ∃ c, cachedCommit repoLog commit = some c ∧ c.previousSha = none)
    (hfetch : (getLog (previousFallbackQuery commit maxListItems)).bind
        (fun l => l.get commit.sha) = some cf) :
    ∃ c2, (previousCommand getLog maxListItems repoLog commit).finalCommit = some c2 ∧
      c2.nextSha = commit.nextSha ∧
      c2.sha = cf.sha ∧ c2.repoPath = cf.repoPath ∧ c2.previousSha = cf.previousSha ∧
      c2.isStash = cf.isStash ∧ c2.files = cf.files ∧ c2.message = cf.message := by
  have hm : prevMissing (cachedCommit repoLog commit) = true :=
    (prevMissing_eq_true_iff _).mpr hmiss
  refine ⟨{ cf with nextSha := commit.nextSha }, ?_, rfl, rfl, rfl, rfl, rfl, rfl, rfl⟩
  simp [previousCommand, hm, hfetch]

/-- Witness for C10: refetching commit `"a"` (whose fresh copy carries
different adjacency) yields a final commit with the original `nextSha` and
all other fields from the fetch. -/
theorem previousCommand_fallback_preserves_fields_witness :
    ∃ c2, (previousCommand exGetLog 50 none exCommit).finalCommit = some c2 ∧
      c2.nextSha = exCommit.nextSha ∧
      c2.sha = exFetch.sha ∧ c2.repoPath = exFetch.repoPath ∧
      c2.previousSha = exFetch.previousSha ∧ c2.isStash = exFetch.isStash ∧
      c2.files = exFetch.files ∧ c2.message = exFetch.message :=
  previousCommand_fallback_preserves_fields exGetLog 50 none exCommit exFetch
    (Or.inl (by decide)) (by decide)

/-- Witness for C6: a concrete run's trace ends with scope creation, picker
display and scope disposal, in that order. -/
theorem showPicker_scope_lifecycle_witness :
    ∃ pre p n,
      (CommitQuickPick.showPicker exCommit true true none none).trace =
        pre ++ [ShowEvent.beginScope true p n, ShowEvent.showQuickPick,
                ShowEvent.disposeScope] ∧
      ∀ e ∈ pre, e = ShowEvent.resolvePreviousFileSha ∨ e = ShowEvent.getRemotes :=
  showPicker_scope_lifecycle exCommit true true none none
